import Mathlib

/-!
Verification of the LIT structured-prediction client slice:
`src/lit_nlp/client/modules/span_graph_module.ts` (annotation
normalization and module display logic) and
`src/lit_nlp/client/core/lit_module.ts` (the `loadLatest` loading
coordinator).  TypeScript functions are shallowly embedded as Lean
functions; code that can throw a runtime `TypeError` is embedded in
`Except JsError`.
-/

set_option autoImplicit false

namespace Lit

/-- The semantic kinds of spec fields that this module slice inspects
(`LitName` values in `src/lit_nlp/client/lib/types.ts`); every other kind is
collapsed into `Other`. -/
inductive LitKind where
  | Tokens
  | TextSegment
  | SequenceTags
  | SpanLabels
  | EdgeLabels
  | Other
  deriving DecidableEq, Repr

/-- A field descriptor in a `Spec`: its kind and its optional `align` attribute
(the name of the token field the field is aligned to). -/
structure FieldDesc where
  kind : LitKind
  align : Option String
  deriving DecidableEq, Repr

/-- A `Spec` is a mapping from field name to field descriptor.  JS objects keep
insertion order and have unique keys, so we embed the mapping as an ordered
association list. -/
abbrev Spec := List (String × FieldDesc)

/-- Span label record `{start, end, label}` from `src/lit_nlp/client/lib/types.ts`. -/
structure SpanLabel where
  start : Nat
  «end» : Nat
  label : String
  deriving DecidableEq, Repr

/-- Edge label `{span1: [start, end), label}` from
`src/lit_nlp/client/elements/span_graph_vis.ts`. -/
structure EdgeLabel where
  span1 : Nat × Nat
  label : String
  deriving DecidableEq, Repr

/-- A raw field value of a record, at the shapes the data model declares:
a raw text string, a token/tag string list, a span-label list, or an
edge-label list. -/
inductive Value where
  | str (s : String)
  | strList (l : List String)
  | spanList (l : List SpanLabel)
  | edgeList (l : List EdgeLabel)
  deriving DecidableEq, Repr

/-- JS `.length` of a raw field value (string length or array length). -/
def Value.jsLength : Value → Nat
  | .str s => s.length
  | .strList l => l.length
  | .spanList l => l.length
  | .edgeList l => l.length

/-- A record (`Input`/`Preds`): mapping from field name to raw value, embedded
as an ordered association list with unique keys. -/
abbrev Record := List (String × Value)

/-- A runtime failure of the embedded TypeScript.  `typeError p` stands for the
opaque `TypeError: Cannot read properties of undefined (reading 'p')` raised by
dereferencing `undefined`.  `unalignedField f` is the descriptive error the
spec calls for on an unaligned tag field; it is stated here so that the claim
can be formalised, and the translated code is shown never to produce it. -/
inductive JsError where
  | typeError (prop : String)
  | unalignedField (field : String)
  deriving DecidableEq, Repr

/-- First-match lookup in an association list (JS object / `Map` access). -/
def lookupField {α : Type} : List (String × α) → String → Option α
  | [], _ => none
  | (k', v) :: rest, k => if k' = k then some v else lookupField rest k

/-- Modelled from the spec: `findSpecKeys` from
`src/lit_nlp/client/lib/utils.ts` is not among the sources; per the spec it
collects, in spec iteration order, the names of the fields whose kind is one
of the requested kinds. -/
def findSpecKeys (spec : Spec) (kinds : List LitKind) : List String :=
  (spec.filter fun kv => kinds.contains kv.2.kind).map Prod.fst

/-- Modelled from the spec: `isLitSubtype` from
`src/lit_nlp/client/lib/utils.ts` is not among the sources; per the spec it
tests whether a field descriptor has the given kind. -/
def isLitSubtype (desc : FieldDesc) (kind : LitKind) : Bool :=
  desc.kind == kind

/-- The supported prediction kinds (`supportedPredTypes`,
`span_graph_module.ts` lines 71-72). -/
def supportedPredTypes : List LitKind :=
  [.SequenceTags, .SpanLabels, .EdgeLabels]

/-- `tagsToEdges` (`span_graph_module.ts` lines 77-81): convert sequence tags
to a list of length-1 span labels, `tags.map((label, i) => ({span1: [i, i+1],
label}))`. -/
def tagsToEdges (tags : List String) : List EdgeLabel :=
  tags.mapIdx fun i label => ⟨(i, i + 1), label⟩

/-- `spansToEdges` (`span_graph_module.ts` lines 86-88): convert span labels to
single-sided edge labels. -/
def spansToEdges (spans : List SpanLabel) : List EdgeLabel :=
  spans.map fun d => ⟨(d.start, d.«end»), d.label⟩

/-- C6: for every list of tag strings of length `L`, `tagsToEdges` returns
exactly `L` edges, and the `i`-th edge is `{span1: [i, i+1], label: tags[i]}`,
in index order (so positions are strictly increasing, with no gaps and no
overlap). -/
theorem tagsToEdges_pointwise (tags : List String) :
    (tagsToEdges tags).length = tags.length ∧
    ∀ i (hi : i < (tagsToEdges tags).length) (hi' : i < tags.length),
      (tagsToEdges tags).get ⟨i, hi⟩ = ⟨(i, i + 1), tags.get ⟨i, hi'⟩⟩ := by
  constructor
  · simp [tagsToEdges]
  · intro i hi hi'
    simp [tagsToEdges, List.getElem_mapIdx]

/-- Witness for C6 at the spec's Scenario 1 input
`tags = ["B-PER", "I-PER", "O"]`, index 1. -/
theorem tagsToEdges_pointwise_witness :
    (tagsToEdges ["B-PER", "I-PER", "O"]).length = 3 ∧
    (tagsToEdges ["B-PER", "I-PER", "O"]).get ⟨1, by decide⟩ =
      ⟨(1, 2), "I-PER"⟩ := by
  refine ⟨(tagsToEdges_pointwise ["B-PER", "I-PER", "O"]).1, ?_⟩
  exact (tagsToEdges_pointwise ["B-PER", "I-PER", "O"]).2 1 (by decide) (by decide)

/-- Append `v` to the list stored under key `k`, or `none` when `k` is absent
(the JS `tokenToTags[tokenKey].push(tagKey)` dereferences `undefined` in that
case). -/
def multimapPush (acc : List (String × List String)) (k : String) (v : String) :
    Option (List (String × List String)) :=
  match acc with
  | [] => none
  | (k', vs) :: rest =>
      if k' = k then some ((k', vs ++ [v]) :: rest)
      else (multimapPush rest k v).map fun r => (k', vs) :: r

/-- The tag-key loop of `mapTokenToTags` (`span_graph_module.ts` lines 99-102):
for each tag key, read `spec[tagKey].align` and push the tag key onto the list
stored under that token key.  Indexing a JS object with `undefined` reads the
key `"undefined"`, and pushing onto a missing entry throws
`TypeError (reading 'push')`. -/
def pushTagKeys (spec : Spec) :
    List (String × List String) → List String →
    Except JsError (List (String × List String))
  | acc, [] => .ok acc
  | acc, tagKey :: rest =>
      match lookupField spec tagKey with
      | none => .error (.typeError "align")
      | some desc =>
          let tokenKey := match desc.align with
            | some a => a
            | none => "undefined"
          match multimapPush acc tokenKey tagKey with
          | none => .error (.typeError "push")
          | some acc' => pushTagKeys spec acc' rest

/-- `mapTokenToTags` (`span_graph_module.ts` lines 90-104): map each token key
to the tag keys aligned to it, seeding every token key with an empty list. -/
def mapTokenToTags (spec : Spec) : Except JsError (List (String × List String)) :=
  let tagKeys := findSpecKeys spec supportedPredTypes
  let tokenKeys := findSpecKeys spec [.Tokens]
  pushTagKeys spec (tokenKeys.map fun k => (k, [])) tagKeys

theorem multimapPush_keys {acc acc' : List (String × List String)}
    {k v : String} (h : multimapPush acc k v = some acc') :
    acc'.map Prod.fst = acc.map Prod.fst := by
  induction acc generalizing acc' with
  | nil => simp [multimapPush] at h
  | cons hd tl ih =>
      obtain ⟨k', vs⟩ := hd
      by_cases hk : k' = k
      · simp [multimapPush, hk] at h
        subst h
        simp [hk]
      · simp [multimapPush, hk] at h
        obtain ⟨r, hr, hacc⟩ := h
        subst hacc
        simp [ih hr]

theorem multimapPush_isSome {acc : List (String × List String)} {k v : String}
    (h : k ∈ acc.map Prod.fst) : (multimapPush acc k v).isSome := by
  induction acc with
  | nil => simp at h
  | cons hd tl ih =>
      obtain ⟨k', vs⟩ := hd
      by_cases hk : k' = k
      · simp [multimapPush, hk]
      · rw [List.map_cons, List.mem_cons] at h
        rcases h with heq | hmem
        · exact absurd heq.symm hk
        · simpa [multimapPush, hk, Option.isSome_map] using ih hmem

theorem pushTagKeys_keys {spec : Spec} :
    ∀ (tks : List String) (acc m : List (String × List String)),
    pushTagKeys spec acc tks = .ok m → m.map Prod.fst = acc.map Prod.fst := by
  intro tks
  induction tks with
  | nil =>
      intro acc m h
      simp [pushTagKeys] at h
      simp [h]
  | cons t rest ih =>
      intro acc m h
      unfold pushTagKeys at h
      cases hl : lookupField spec t with
      | none => simp [hl] at h
      | some desc =>
          simp only [hl] at h
          cases hp : multimapPush acc
              (match desc.align with | some a => a | none => "undefined") t with
          | none => simp [hp] at h
          | some acc' =>
              simp only [hp] at h
              rw [ih acc' m h, multimapPush_keys hp]

/-- A key occurring in an association list is found by `lookupField`. -/
theorem lookupField_isSome {α : Type} {l : List (String × α)} {k : String}
    (h : k ∈ l.map Prod.fst) : (lookupField l k).isSome := by
  induction l with
  | nil => simp at h
  | cons hd tl ih =>
      obtain ⟨k', v⟩ := hd
      by_cases hk : k' = k
      · simp [lookupField, hk]
      · rw [List.map_cons, List.mem_cons] at h
        rcases h with heq | hmem
        · exact absurd heq.symm hk
        · simpa [lookupField, hk] using ih hmem

/-- `multimapPush` succeeds only on a key already present. -/
theorem multimapPush_some_mem {acc acc' : List (String × List String)}
    {k v : String} (h : multimapPush acc k v = some acc') :
    k ∈ acc.map Prod.fst := by
  induction acc generalizing acc' with
  | nil => simp [multimapPush] at h
  | cons hd tl ih =>
      obtain ⟨k', vs⟩ := hd
      by_cases hk : k' = k
      · rw [List.map_cons, List.mem_cons]
        exact Or.inl hk.symm
      · simp [multimapPush, hk] at h
        obtain ⟨r, hr, _⟩ := h
        rw [List.map_cons, List.mem_cons]
        exact Or.inr (ih hr)

theorem pushTagKeys_unaligned {spec : Spec} {t : String} {d : FieldDesc}
    {a : String} (hd : lookupField spec t = some d) (ha : d.align = some a) :
    ∀ (tks : List String) (acc : List (String × List String)),
    t ∈ tks → a ∉ acc.map Prod.fst →
    (∀ t' ∈ tks, (lookupField spec t').isSome) →
    pushTagKeys spec acc tks = .error (.typeError "push") := by
  intro tks
  induction tks with
  | nil => intro acc ht; simp at ht
  | cons t1 rest ih =>
      intro acc ht hna hsome
      have h1 : (lookupField spec t1).isSome := hsome t1 (by simp)
      obtain ⟨d1, hd1⟩ := Option.isSome_iff_exists.mp h1
      unfold pushTagKeys
      simp only [hd1]
      cases hp : multimapPush acc
          (match d1.align with | some a' => a' | none => "undefined") t1 with
      | none => rfl
      | some acc' =>
          have hmem : t ∈ rest := by
            rcases List.mem_cons.mp ht with heq | hmem
            · exfalso
              subst heq
              rw [hd] at hd1
              injection hd1 with hdd
              subst hdd
              rw [ha] at hp
              exact hna (multimapPush_some_mem hp)
            · exact hmem
          have hna' : a ∉ acc'.map Prod.fst := by
            rw [multimapPush_keys hp]
            exact hna
          exact ih acc' hmem hna' fun t' ht' => hsome t' (by simp [ht'])

/-- A key reported by `findSpecKeys` is a key of the spec. -/
theorem findSpecKeys_subset_keys {spec : Spec} {kinds : List LitKind}
    {t : String} (h : t ∈ findSpecKeys spec kinds) : t ∈ spec.map Prod.fst := by
  simp only [findSpecKeys, List.mem_map] at h
  obtain ⟨kv, hkv, hfst⟩ := h
  exact hfst ▸ List.mem_map_of_mem Prod.fst (List.mem_of_mem_filter hkv)

/-- C3 (amended): when a tag field's `align` target is not among the spec's
token fields, `mapTokenToTags` does fail rather than silently drop the field,
but the failure is the opaque `TypeError` raised by pushing onto an undefined
entry, not a descriptive "unaligned field" error. -/
theorem mapTokenToTags_unaligned_typeError (spec : Spec) (t : String)
    (d : FieldDesc) (a : String)
    (ht : t ∈ findSpecKeys spec supportedPredTypes)
    (hd : lookupField spec t = some d) (ha : d.align = some a)
    (hna : a ∉ findSpecKeys spec [.Tokens]) :
    mapTokenToTags spec = .error (.typeError "push") := by
  unfold mapTokenToTags
  refine pushTagKeys_unaligned hd ha _ _ ht ?_ ?_
  · simpa using hna
  · intro t' ht'
    exact lookupField_isSome (findSpecKeys_subset_keys ht')

/-- A one-field spec whose only field is a `SequenceTags` field aligned to a
token field name that does not exist in the spec. -/
def specUnalignedTag : Spec := [("tags", ⟨.SequenceTags, some "toks"⟩)]

/-- Counterexample to C3 as stated: on a spec with an unaligned tag field the
grouping operation crashes opaquely (`TypeError` from `.push` on `undefined`),
it does not surface a descriptive "unaligned field" error. -/
theorem mapTokenToTags_unaligned_not_descriptive :
    mapTokenToTags specUnalignedTag = .error (.typeError "push") ∧
    mapTokenToTags specUnalignedTag ≠ .error (.unalignedField "tags") := by
  constructor
  · rfl
  · intro h
    have h1 : mapTokenToTags specUnalignedTag = .error (.typeError "push") := rfl
    rw [h1] at h
    simp at h

/-- Witness for the amended C3 theorem at the concrete spec
`specUnalignedTag`. -/
theorem mapTokenToTags_unaligned_typeError_witness :
    ("tags" ∈ findSpecKeys specUnalignedTag supportedPredTypes) ∧
    mapTokenToTags specUnalignedTag = .error (.typeError "push") :=
  ⟨by simp [findSpecKeys, supportedPredTypes, specUnalignedTag],
   mapTokenToTags_unaligned_typeError specUnalignedTag "tags"
     ⟨.SequenceTags, some "toks"⟩ "toks"
     (by simp [findSpecKeys, supportedPredTypes, specUnalignedTag]) rfl rfl
     (by simp [findSpecKeys, specUnalignedTag])⟩

/-- One named layer of edges (`AnnotationLayer` in
`src/lit_nlp/client/elements/span_graph_vis.ts`). -/
structure AnnotationLayer where
  name : String
  edges : List EdgeLabel
  deriving DecidableEq, Repr

/-- Tokens plus their annotation layers (`SpanGraph` in
`src/lit_nlp/client/elements/span_graph_vis.ts`). -/
structure SpanGraph where
  tokens : List String
  layers : List AnnotationLayer
  deriving DecidableEq, Repr

/-- The result mapping of `parseInput`, token key to `SpanGraph`
(the local interface at `span_graph_module.ts` lines 43-45). -/
abbrev AnnotationMap := List (String × SpanGraph)

/-- JS `String.prototype.split` called with no separator, as in
`data[textKey].split()` (`span_graph_module.ts` line 133): it returns the
one-element array holding the whole string, it does not split on
whitespace. -/
def jsSplitNoArg (s : String) : List String := [s]

/-- The per-tag-field body of the inner loop of `parseInput`
(`span_graph_module.ts` lines 113-126).  A missing record field is
`undefined`, so reading `.length` on it throws.  An empty value (`""` or `[]`,
the "temporary workaround" of lines 115-121) becomes the empty edge list in
every branch, since `tagsToEdges []` and `spansToEdges []` are `[]` and `[]`
passes through the pass-through branch unchanged.  Value shapes outside the
spec's declared data model (a non-empty value of the wrong shape for the
field's kind) are modelled as errors; no claim depends on those inputs. -/
def convertEdges (spec : Spec) (data : Record) (tagKey : String) :
    Except JsError (List EdgeLabel) :=
  match lookupField data tagKey with
  | none => .error (.typeError "length")
  | some v =>
      match lookupField spec tagKey with
      | none => .error (.typeError "name")
      | some desc =>
          if v.jsLength = 0 then
            if isLitSubtype desc .SequenceTags then .ok (tagsToEdges [])
            else if isLitSubtype desc .SpanLabels then .ok (spansToEdges [])
            else .ok []
          else
            if isLitSubtype desc .SequenceTags then
              match v with
              | .strList tags => .ok (tagsToEdges tags)
              | _ => .error (.typeError "map")
            else if isLitSubtype desc .SpanLabels then
              match v with
              | .spanList spans => .ok (spansToEdges spans)
              | _ => .error (.typeError "map")
            else
              match v with
              | .edgeList es => .ok es
              | _ => .error (.typeError "shape")

/-- The token-resolution step of `parseInput` (`span_graph_module.ts` lines
129-134): use `data[tokenKey]` when non-empty, otherwise fall back to
`data[findSpecKeys(spec, 'TextSegment')[0]].split()`.  When the spec has no
`TextSegment` field the indexing yields `undefined` and `.split()` on it
throws; likewise when the text field is absent from the record or is not a
string (arrays have no `.split`).  A non-empty token value that is not a
string list is outside the declared data model and is modelled as an error;
no claim depends on those inputs. -/
def resolveTokens (spec : Spec) (data : Record) (tokenKey : String) :
    Except JsError (List String) :=
  match lookupField data tokenKey with
  | none => .error (.typeError "length")
  | some v =>
      if v.jsLength = 0 then
        match (findSpecKeys spec [.TextSegment]).head? with
        | none => .error (.typeError "split")
        | some textKey =>
            match lookupField data textKey with
            | none => .error (.typeError "split")
            | some (.str s) => .ok (jsSplitNoArg s)
            | some _ => .error (.typeError "split")
      else
        match v with
        | .strList toks => .ok toks
        | _ => .error (.typeError "shape")

/-- The inner `for (const tagKey of tokenToTags[tokenKey])` loop of
`parseInput` (`span_graph_module.ts` lines 112-128), building the
annotation-layer list in tag-field discovery order; a thrown error
propagates. -/
def buildLayers (spec : Spec) (data : Record) :
    List String → Except JsError (List AnnotationLayer)
  | [] => .ok []
  | tagKey :: rest =>
      match convertEdges spec data tagKey with
      | .error e => .error e
      | .ok edges =>
          match buildLayers spec data rest with
          | .error e => .error e
          | .ok layers => .ok (⟨tagKey, edges⟩ :: layers)

/-- The outer `for (const tokenKey of Object.keys(tokenToTags))` loop of
`parseInput` (`span_graph_module.ts` lines 111-136), building `ret` entry by
entry. -/
def buildAllGroups (spec : Spec) (data : Record) :
    List (String × List String) → Except JsError AnnotationMap
  | [] => .ok []
  | (tokenKey, tagKeys) :: rest =>
      match buildLayers spec data tagKeys with
      | .error e => .error e
      | .ok layers =>
          match resolveTokens spec data tokenKey with
          | .error e => .error e
          | .ok tokens =>
              match buildAllGroups spec data rest with
              | .error e => .error e
              | .ok restOut => .ok ((tokenKey, ⟨tokens, layers⟩) :: restOut)

/-- `parseInput` (`span_graph_module.ts` lines 106-138): group tag fields under
their token fields and build a `SpanGraph` per token field. -/
def parseInput (data : Record) (spec : Spec) : Except JsError AnnotationMap :=
  match mapTokenToTags spec with
  | .error e => .error e
  | .ok tokenToTags => buildAllGroups spec data tokenToTags

/-- Whether the embedded TypeScript threw. -/
def isError {ε α : Type} : Except ε α → Bool
  | .error _ => true
  | .ok _ => false

/-- Every layer produced by the inner loop carries the converted edges of the
tag field it is named after. -/
theorem buildLayers_mem {spec : Spec} {data : Record} :
    ∀ (tks : List String) (ls : List AnnotationLayer),
    buildLayers spec data tks = .ok ls → ∀ layer ∈ ls,
    layer.name ∈ tks ∧ convertEdges spec data layer.name = .ok layer.edges := by
  intro tks
  induction tks with
  | nil =>
      intro ls h layer hmem
      unfold buildLayers at h
      injection h with h
      subst h
      simp at hmem
  | cons t rest ih =>
      intro ls h layer hmem
      unfold buildLayers at h
      cases hc : convertEdges spec data t with
      | error e => rw [hc] at h; exact absurd h (by simp)
      | ok edges =>
          rw [hc] at h
          cases hb : buildLayers spec data rest with
          | error e => rw [hb] at h; exact absurd h (by simp)
          | ok layers =>
              rw [hb] at h
              injection h with h
              subst h
              rcases List.mem_cons.mp hmem with heq | hmem'
              · subst heq
                exact ⟨by simp, by simpa using hc⟩
              · obtain ⟨h1, h2⟩ := ih layers hb layer hmem'
                exact ⟨by simp [h1], h2⟩

/-- Every entry of the outer loop's result holds the resolved tokens and the
built layers of its token field. -/
theorem buildAllGroups_mem {spec : Spec} {data : Record} :
    ∀ (entries : List (String × List String)) (out : AnnotationMap),
    buildAllGroups spec data entries = .ok out →
    ∀ tokenKey g, (tokenKey, g) ∈ out →
    ∃ tks, (tokenKey, tks) ∈ entries ∧
      buildLayers spec data tks = .ok g.layers ∧
      resolveTokens spec data tokenKey = .ok g.tokens := by
  intro entries
  induction entries with
  | nil =>
      intro out h tokenKey g hmem
      unfold buildAllGroups at h
      injection h with h
      subst h
      simp at hmem
  | cons hd rest ih =>
      intro out h tokenKey g hmem
      obtain ⟨k1, t1⟩ := hd
      unfold buildAllGroups at h
      cases hb : buildLayers spec data t1 with
      | error e => rw [hb] at h; exact absurd h (by simp)
      | ok layers =>
          rw [hb] at h
          cases hr : resolveTokens spec data k1 with
          | error e => rw [hr] at h; exact absurd h (by simp)
          | ok tokens =>
              rw [hr] at h
              cases hg : buildAllGroups spec data rest with
              | error e => rw [hg] at h; exact absurd h (by simp)
              | ok restOut =>
                  rw [hg] at h
                  injection h with h
                  subst h
                  rcases List.mem_cons.mp hmem with heq | hmem'
                  · injection heq with hk hgr
                    subst hk
                    subst hgr
                    exact ⟨t1, by simp, by simpa using hb, by simpa using hr⟩
                  · obtain ⟨tks, h1, h2, h3⟩ := ih restOut hg tokenKey g hmem'
                    exact ⟨tks, by simp [h1], h2, h3⟩

/-- If token resolution throws for some entry of the multimap, the outer loop
throws. -/
theorem buildAllGroups_err {spec : Spec} {data : Record} {tokenKey : String}
    (hres : isError (resolveTokens spec data tokenKey) = true) :
    ∀ (entries : List (String × List String)) (tks : List String),
    (tokenKey, tks) ∈ entries →
    isError (buildAllGroups spec data entries) = true := by
  intro entries
  induction entries with
  | nil => intro tks hmem; simp at hmem
  | cons hd rest ih =>
      intro tks hmem
      obtain ⟨k1, t1⟩ := hd
      unfold buildAllGroups
      cases hb : buildLayers spec data t1 with
      | error e => rfl
      | ok layers =>
          cases hr : resolveTokens spec data k1 with
          | error e => rfl
          | ok tokens =>
              rcases List.mem_cons.mp hmem with heq | hmem'
              · injection heq with hk ht
                subst hk
                rw [hr] at hres
                simp [isError] at hres
              · have hih := ih tks hmem'
                cases hg : buildAllGroups spec data rest with
                | error e => rfl
                | ok restOut => rw [hg] at hih; simp [isError] at hih

/-- A non-empty token list in the record is used as-is. -/
theorem resolveTokens_nonempty {spec : Spec} {data : Record} {tokenKey : String}
    {l : List String} (hl : lookupField data tokenKey = some (.strList l))
    (hne : l ≠ []) : resolveTokens spec data tokenKey = .ok l := by
  unfold resolveTokens
  rw [hl]
  simp [Value.jsLength, hne]

/-- An empty token value falls back to `split()` on the first TextSegment
field's string value. -/
theorem resolveTokens_fallback {spec : Spec} {data : Record} {tokenKey : String}
    {v : Value} {textKey s : String} (hv : lookupField data tokenKey = some v)
    (h0 : v.jsLength = 0)
    (hts : (findSpecKeys spec [.TextSegment]).head? = some textKey)
    (htxt : lookupField data textKey = some (.str s)) :
    resolveTokens spec data tokenKey = .ok (jsSplitNoArg s) := by
  unfold resolveTokens
  rw [hv]
  simp [h0, hts, htxt]

/-- An empty token value with no TextSegment field in the spec throws. -/
theorem resolveTokens_noText {spec : Spec} {data : Record} {tokenKey : String}
    {v : Value} (hv : lookupField data tokenKey = some v) (h0 : v.jsLength = 0)
    (hts : findSpecKeys spec [.TextSegment] = []) :
    resolveTokens spec data tokenKey = .error (.typeError "split") := by
  unfold resolveTokens
  rw [hv]
  simp [h0, hts]

/-- An empty/placeholder tag value converts to the empty edge list in every
kind branch. -/
theorem convertEdges_empty {spec : Spec} {data : Record} {tagKey : String}
    {v : Value} {desc : FieldDesc} (hv : lookupField data tagKey = some v)
    (h0 : v.jsLength = 0) (hdesc : lookupField spec tagKey = some desc) :
    convertEdges spec data tagKey = .ok [] := by
  unfold convertEdges
  rw [hv, hdesc]
  simp only [h0, if_pos]
  split
  · simp [tagsToEdges]
  · split
    · simp [spansToEdges]
    · rfl

/-- C4: in `parseInput`, a token field with a non-empty record value yields
exactly that value as the tokens, and a token field with an empty value yields
the `split()` of the first TextSegment field's raw string — which is the
one-element list holding the whole string. -/
theorem parseInput_token_resolution (spec : Spec) (data : Record)
    (out : AnnotationMap) (tokenKey : String) (g : SpanGraph)
    (hok : parseInput data spec = .ok out) (hmem : (tokenKey, g) ∈ out) :
    (∀ l, lookupField data tokenKey = some (.strList l) → l ≠ [] →
      g.tokens = l) ∧
    (∀ v textKey s, lookupField data tokenKey = some v → v.jsLength = 0 →
      (findSpecKeys spec [.TextSegment]).head? = some textKey →
      lookupField data textKey = some (.str s) →
      g.tokens = jsSplitNoArg s) := by
  unfold parseInput at hok
  cases hm : mapTokenToTags spec with
  | error e => rw [hm] at hok; exact absurd hok (by simp)
  | ok m =>
      rw [hm] at hok
      obtain ⟨tks, _, _, hres⟩ := buildAllGroups_mem m out hok tokenKey g hmem
      constructor
      · intro l hl hne
        rw [resolveTokens_nonempty hl hne] at hres
        injection hres with h
        exact h.symm
      · intro v textKey s hv h0 hts htxt
        rw [resolveTokens_fallback hv h0 hts htxt] at hres
        injection hres with h
        exact h.symm

/-- A three-field demo spec: a text field, a token field, and a sequence-tag
field aligned to the token field. -/
def specDemo : Spec :=
  [("txt", ⟨.TextSegment, none⟩), ("toks", ⟨.Tokens, none⟩),
   ("tags", ⟨.SequenceTags, some "toks"⟩)]

/-- A record for `specDemo` whose token field is empty (fallback path) and
whose tag field is the empty-string placeholder. -/
def dataFallback : Record :=
  [("txt", .str "a b"), ("toks", .strList []), ("tags", .str "")]

/-- A record for `specDemo` whose token field is non-empty. -/
def dataDirect : Record :=
  [("txt", .str "a b"), ("toks", .strList ["x", "y"]), ("tags", .str "")]

/-- Witness for C4 on `specDemo`: the non-empty token value `["x", "y"]` is
used as-is, and the empty token value falls back to `split()`, producing the
single token `"a b"`. -/
theorem parseInput_token_resolution_witness :
    (SpanGraph.mk ["a b"] [⟨"tags", []⟩]).tokens = jsSplitNoArg "a b" ∧
    (SpanGraph.mk ["x", "y"] [⟨"tags", []⟩]).tokens = ["x", "y"] :=
  ⟨(parseInput_token_resolution specDemo dataFallback
      [("toks", ⟨["a b"], [⟨"tags", []⟩]⟩)] "toks" ⟨["a b"], [⟨"tags", []⟩]⟩
      rfl (by simp)).2 (.strList []) "txt" "a b" rfl rfl rfl rfl,
   (parseInput_token_resolution specDemo dataDirect
      [("toks", ⟨["x", "y"], [⟨"tags", []⟩]⟩)] "toks"
      ⟨["x", "y"], [⟨"tags", []⟩]⟩ rfl (by simp)).1 ["x", "y"] rfl (by simp)⟩

/-- C7: a tag field whose raw record value is an empty placeholder (for
instance the empty string where a list was expected) converts without error to
the empty edge list, and the corresponding layer in `parseInput`'s output has
no edges. -/
theorem parseInput_empty_tag_value (spec : Spec) (data : Record)
    (tagKey : String) (v : Value) (desc : FieldDesc)
    (hv : lookupField data tagKey = some v) (h0 : v.jsLength = 0)
    (hdesc : lookupField spec tagKey = some desc) :
    convertEdges spec data tagKey = .ok [] ∧
    (∀ out tokenKey g layer, parseInput data spec = .ok out →
      (tokenKey, g) ∈ out → layer ∈ g.layers → layer.name = tagKey →
      layer.edges = []) := by
  have hce := convertEdges_empty hv h0 hdesc
  refine ⟨hce, ?_⟩
  intro out tokenKey g layer hok hmem hlayer hname
  unfold parseInput at hok
  cases hm : mapTokenToTags spec with
  | error e => rw [hm] at hok; exact absurd hok (by simp)
  | ok m =>
      rw [hm] at hok
      obtain ⟨tks, _, hbl, _⟩ := buildAllGroups_mem m out hok tokenKey g hmem
      obtain ⟨_, hconv⟩ := buildLayers_mem tks g.layers hbl layer hlayer
      rw [hname, hce] at hconv
      injection hconv with h
      exact h.symm

/-- Witness for C7 on `specDemo` and `dataFallback`, whose tag field holds the
placeholder `""`. -/
theorem parseInput_empty_tag_value_witness :
    convertEdges specDemo dataFallback "tags" = .ok [] ∧
    (AnnotationLayer.mk "tags" []).edges = [] :=
  ⟨(parseInput_empty_tag_value specDemo dataFallback "tags" (.str "")
      ⟨.SequenceTags, some "toks"⟩ rfl rfl rfl).1,
   (parseInput_empty_tag_value specDemo dataFallback "tags" (.str "")
      ⟨.SequenceTags, some "toks"⟩ rfl rfl rfl).2
      [("toks", ⟨["a b"], [⟨"tags", []⟩]⟩)] "toks" ⟨["a b"], [⟨"tags", []⟩]⟩
      ⟨"tags", []⟩ rfl (by simp) (by simp) rfl⟩

/-- C8: `parseInput` is deterministic; structurally identical `(record, spec)`
inputs give structurally identical outputs.  In this embedding the function is
pure by construction, which records that the source performs no writes outside
its own locals. -/
theorem parseInput_deterministic (data data' : Record) (spec spec' : Spec)
    (h1 : data = data') (h2 : spec = spec') :
    parseInput data spec = parseInput data' spec' := by
  rw [h1, h2]

/-- Witness for C8 at `(dataFallback, specDemo)`. -/
theorem parseInput_deterministic_witness :
    parseInput dataFallback specDemo = parseInput dataFallback specDemo :=
  parseInput_deterministic dataFallback dataFallback specDemo specDemo rfl rfl

/-- C10: when a token field's value is empty and the spec has no TextSegment
field, the fallback path dereferences an absent field and `parseInput` throws
instead of returning a result. -/
theorem parseInput_fails_no_textsegment (spec : Spec) (data : Record)
    (tokenKey : String) (v : Value)
    (htk : tokenKey ∈ findSpecKeys spec [.Tokens])
    (hv : lookupField data tokenKey = some v) (h0 : v.jsLength = 0)
    (hts : findSpecKeys spec [.TextSegment] = []) :
    isError (parseInput data spec) = true := by
  unfold parseInput
  cases hm : mapTokenToTags spec with
  | error e => rfl
  | ok m =>
      unfold mapTokenToTags at hm
      have hkeys : m.map Prod.fst = findSpecKeys spec [.Tokens] := by
        rw [pushTagKeys_keys (findSpecKeys spec supportedPredTypes)
          ((findSpecKeys spec [.Tokens]).map fun k => (k, [])) m hm]
        rw [List.map_map]
        rw [show (Prod.fst ∘ fun k : String => (k, ([] : List String))) = id
          from rfl]
        exact List.map_id _
      have htk' : tokenKey ∈ m.map Prod.fst := by rw [hkeys]; exact htk
      obtain ⟨⟨k, tks⟩, hmem, hfst⟩ := List.mem_map.mp htk'
      have hres : isError (resolveTokens spec data tokenKey) = true := by
        rw [resolveTokens_noText hv h0 hts]
        rfl
      have hk : k = tokenKey := hfst
      rw [hk] at hmem
      exact buildAllGroups_err hres m tks hmem

/-- A spec with a single token field and no TextSegment field. -/
def specNoText : Spec := [("toks", ⟨.Tokens, none⟩)]

/-- A record for `specNoText` whose token field is empty. -/
def dataEmptyToks : Record := [("toks", .strList [])]

/-- Witness for C10 at `specNoText` and `dataEmptyToks`. -/
theorem parseInput_fails_no_textsegment_witness :
    ("toks" ∈ findSpecKeys specNoText [LitKind.Tokens]) ∧
    isError (parseInput dataEmptyToks specNoText) = true :=
  ⟨by simp [findSpecKeys, specNoText],
   parseInput_fails_no_textsegment specNoText dataEmptyToks "toks"
     (.strList []) (by simp [findSpecKeys, specNoText]) rfl rfl rfl⟩

/-- JS `Map.set`: replace the value stored under `k`, or append a new entry. -/
def mapSet (m : List (String × Nat)) (k : String) (p : Nat) :
    List (String × Nat) :=
  match m with
  | [] => [(k, p)]
  | (k', p') :: rest =>
      if k' = k then (k, p) :: rest else (k', p') :: mapSet rest k p

/-- JS `Map.delete`: remove the entry stored under `k` (keys are unique). -/
def mapDelete (m : List (String × Nat)) (k : String) : List (String × Nat) :=
  match m with
  | [] => []
  | (k', p') :: rest =>
      if k' = k then rest else (k', p') :: mapDelete rest k

/-- The observable state of one `LitModule`'s `loadLatest` machinery
(`lit_module.ts` lines 64-96): the `latestLoadPromises` map (promises
identified by opaque numeric ids), the parent widget's busy flag set through
`setIsLoading`, and a log of the results committed so far (the calls that
returned their result instead of `null`). -/
structure CoordState where
  latestLoadPromises : List (String × Nat)
  isLoading : Bool
  committed : List (String × Nat)
  deriving DecidableEq, Repr

/-- The state of a module before any call. -/
def initCoord : CoordState := ⟨[], false, []⟩

/-- One scheduling event of `loadLatest` under the single-threaded model:
a call starts (`issue`), or an awaited promise settles and the suspended
continuation resumes (`completeOk`), or the awaited promise rejects
(`completeErr`). -/
inductive LoadEvent where
  | issue (key : String) (pid : Nat)
  | completeOk (key : String) (pid : Nat)
  | completeErr (key : String) (pid : Nat)
  deriving DecidableEq, Repr

/-- The effect of one event on the coordinator state, translated from
`loadLatest` (`lit_module.ts` lines 83-96).  `issue` runs lines 84-85
(`set` then `setIsLoading(true)`).  `completeOk` runs lines 89-95: when the
stored promise is still this call's promise, clear the busy flag, delete the
handle and commit the result; otherwise return `null` and touch nothing.
`completeErr` models a rejected promise: the `await` on line 87 rethrows, so
none of lines 89-95 runs — the state is left untouched and the failure
propagates to the caller. -/
def loadStep (s : CoordState) : LoadEvent → CoordState
  | .issue k p =>
      { s with latestLoadPromises := mapSet s.latestLoadPromises k p,
               isLoading := true }
  | .completeOk k p =>
      if lookupField s.latestLoadPromises k = some p then
        { s with isLoading := false,
                 latestLoadPromises := mapDelete s.latestLoadPromises k,
                 committed := s.committed ++ [(k, p)] }
      else s
  | .completeErr _ _ => s

/-- Run a sequence of scheduling events. -/
def runLoad (s : CoordState) (es : List LoadEvent) : CoordState :=
  es.foldl loadStep s

/-- C1: last-issued wins.  After issuing promise `a` then promise `b` under
the same key, either completion order commits exactly `b`'s result; `a`'s
result is never committed, even when `a` completes after `b`'s result was
committed. -/
theorem loadLatest_last_issued_wins (k : String) (a b : Nat) (hne : a ≠ b)
    (cs : List LoadEvent)
    (hcs : cs = [.completeOk k a, .completeOk k b] ∨
           cs = [.completeOk k b, .completeOk k a]) :
    (runLoad initCoord ([.issue k a, .issue k b] ++ cs)).committed =
      [(k, b)] := by
  rcases hcs with h | h <;> subst h <;>
    simp [runLoad, loadStep, initCoord, mapSet, mapDelete, lookupField,
      hne, Ne.symm hne]

/-- Witness for C1 under the key `"getPreds"` with promise ids `0` and `1`,
in the completion order where the stale promise finishes first. -/
theorem loadLatest_last_issued_wins_witness :
    ((0 : Nat) ≠ 1) ∧
    (runLoad initCoord ([.issue "getPreds" 0, .issue "getPreds" 1] ++
      [.completeOk "getPreds" 0, .completeOk "getPreds" 1])).committed =
      [("getPreds", 1)] :=
  ⟨by decide,
   loadLatest_last_issued_wins "getPreds" 0 1 (by decide) _ (Or.inl rfl)⟩

/-- C2 is a code bug: when the awaited promise rejects while its handle is
still the stored one, `loadLatest` has no `try`/`finally`, so
`setIsLoading(false)` on line 90 never runs; the busy flag stays `true` and
the stale handle stays in the map, contradicting the spec's requirement that
an unhandled failure not leave the busy signal permanently true. -/
theorem loadLatest_reject_leaves_busy :
    (runLoad initCoord
      [.issue "getPreds" 7, .completeErr "getPreds" 7]).isLoading = true ∧
    lookupField (runLoad initCoord
      [.issue "getPreds" 7, .completeErr "getPreds" 7]).latestLoadPromises
      "getPreds" = some 7 := by
  constructor <;> rfl

/-- The state of the `SpanGraphModule` reactor
(`span_graph_module.ts` lines 202-246): the visible annotation state, the
loading-coordinator state, and a count of `apiService.getPreds` calls
issued. -/
structure PredModuleState where
  predDisplayData : AnnotationMap
  coord : CoordState
  getPredsCalls : Nat
  deriving DecidableEq, Repr

/-- The synchronous part of `updatePredDisplayData`
(`span_graph_module.ts` lines 222-235): on a `null` selection the visible
annotation state is assigned `{}` directly; on a non-null selection a
`getPreds` fetch is issued and handed to `loadLatest` under the key
`"getPreds"` (the later completion is a separate `LoadEvent`). -/
def updatePredDisplayDataStart (s : PredModuleState) (input : Option Nat)
    (pid : Nat) : PredModuleState :=
  match input with
  | none => { s with predDisplayData := [] }
  | some _ =>
      { s with getPredsCalls := s.getPredsCalls + 1,
               coord := loadStep s.coord (.issue "getPreds" pid) }

/-- C5: when the primary selection becomes empty, the visible annotation state
becomes the empty mapping synchronously, the loading coordinator is not
touched, and no prediction fetch is issued. -/
theorem updatePredDisplayData_null_clears (s : PredModuleState) (pid : Nat) :
    (updatePredDisplayDataStart s none pid).predDisplayData = [] ∧
    (updatePredDisplayDataStart s none pid).coord = s.coord ∧
    (updatePredDisplayDataStart s none pid).getPredsCalls = s.getPredsCalls :=
  ⟨rfl, rfl, rfl⟩

/-- The model specs argument of `shouldDisplayModule` (unused by the gold
module's predicate). -/
abbrev ModelsMap := List (String × Spec)

/-- `SpanGraphGoldModule.shouldDisplayModule`
(`span_graph_module.ts` lines 194-199): the dataset spec must have at least
one `Tokens` field and at least one field of a supported prediction kind. -/
def SpanGraphGoldModule.shouldDisplayModule (modelSpecs : ModelsMap)
    (datasetSpec : Spec) : Bool :=
  decide (0 < (findSpecKeys datasetSpec [.Tokens]).length) &&
  decide (0 < (findSpecKeys datasetSpec supportedPredTypes).length)

/-- C9: `shouldDisplayModule` returns `true` iff the dataset spec has at least
one field of kind `Tokens` and at least one field of a supported prediction
kind (`SequenceTags`, `SpanLabels` or `EdgeLabels`). -/
theorem shouldDisplayModule_iff (modelSpecs : ModelsMap) (datasetSpec : Spec) :
    SpanGraphGoldModule.shouldDisplayModule modelSpecs datasetSpec = true ↔
    ((∃ kv ∈ datasetSpec, kv.2.kind = LitKind.Tokens) ∧
     (∃ kv ∈ datasetSpec, kv.2.kind ∈ supportedPredTypes)) := by
  unfold SpanGraphGoldModule.shouldDisplayModule
  simp [findSpecKeys, List.length_pos, List.filter_eq_nil_iff]

end Lit
